import Mathlib

/-!
Shallow embedding of the daccia content platform (src/platform/src/daccia),
covering the style-learning pipeline (style/profile.py, style/analyzer.py,
style/applier.py), the model client retry policy (llm/client.py), the
conversation log (llm/conversation.py), the generation reply parser
(content/article.py, content/streams.py), the research analyzer
(research/analyzer.py) and the blog-section regeneration (cli.py).

Modelling conventions:
- Python floats are modelled as exact rationals (`ℚ`); the decimal literals
  0.15, 0.2, 0.3 ... of the source are exact binary-free rationals here.
- JSON values produced by `json.loads` are the inductive `JVal`; a reply that
  fails to parse (raising `json.JSONDecodeError`) is modelled as `none`, and
  a reply that parses to the value `v` as `some v`.
- Python exceptions raised inside the modelled fragments are the `PyErr`
  error type of an `Except` computation.
- Python `dict`s are association lists with unique keys in insertion order.
- Wall-clock fields (`last_updated`, elapsed seconds) are not modelled.
-/

namespace Daccia

/-- A JSON value as returned by `json.loads`. Numbers are collapsed to `ℚ`. -/
inductive JVal where
  | jnull
  | jbool (b : Bool)
  | jnum (q : ℚ)
  | jstr (s : String)
  | jarr (elems : List JVal)
  | jobj (fields : List (String × JVal))

/-- Python exceptions that the modelled code can raise. -/
inductive PyErr where
  | typeError
  | keyError
  | attrError
  deriving DecidableEq

/-- Boolean list-prefix test (used to model substring search). -/
def isPrefList : List Char → List Char → Bool
  | [], _ => true
  | _ :: _, [] => false
  | a :: as, b :: bs => a == b && isPrefList as bs

/-- `hasOcc needle hay`: does `needle` occur as a contiguous sublist of `hay`?
Models Python `needle in hay` for strings. -/
def hasOcc (needle : List Char) : List Char → Bool
  | [] => isPrefList needle []
  | c :: t => isPrefList needle (c :: t) || hasOcc needle t

/-- Python `needle in hay` on strings (substring containment). -/
def substrOf (needle hay : String) : Bool :=
  hasOcc needle.data hay.data

/-- Python `==` between the string `key` and a JSON value (`str.__eq__`):
true only against an equal string. -/
def eqStr (key : String) : JVal → Bool
  | .jstr s => key == s
  | _ => false

/-- Lookup in a JSON object. `json.loads` collapses duplicate keys keeping the
last one, hence the reverse search. -/
def objGet (fields : List (String × JVal)) (key : String) : Option JVal :=
  (fields.reverse.find? (fun p => p.1 == key)).map (fun p => p.2)

/-- Python `key in analysis` for the possible analysis values: key containment
for dicts, membership for lists, substring test for strings, `TypeError`
otherwise. -/
def pyIn (key : String) : JVal → Except PyErr Bool
  | .jobj fields => .ok (fields.any (fun p => p.1 == key))
  | .jarr elems => .ok (elems.any (eqStr key))
  | .jstr s => .ok (substrOf key s)
  | _ => .error .typeError

/-- Python `analysis[key]`: dict lookup (`KeyError` when absent), `TypeError`
on lists and strings indexed by a string, and on every other value. -/
def pyGetItem (key : String) : JVal → Except PyErr JVal
  | .jobj fields =>
    match objGet fields key with
    | some v => .ok v
    | none => .error .keyError
  | _ => .error .typeError

/-- `StyleDimension` (style/profile.py). `value` starts as a string but the
analyzer assigns whatever JSON value the reply carries (pydantic does not
re-validate on assignment), so it is a `JVal` here; likewise `examples`. -/
structure StyleDimension where
  name : String
  description : String
  value : JVal
  confidence : ℚ
  examples : List JVal

/-- `StyleProfile` (style/profile.py); `dimensions` is an insertion-ordered
dict, `last_updated` is not modelled. -/
structure StyleProfile where
  user_id : String
  dimensions : List (String × StyleDimension)
  edit_count : ℕ

/-- One default dimension of `StyleProfile.default()`. -/
def mkDim (name description value : String) : StyleDimension :=
  { name := name, description := description, value := .jstr value,
    confidence := 0, examples := [] }

/-- `StyleProfile.default()` (style/profile.py): the 8 fixed dimensions with
neutral values and zero confidence. -/
def StyleProfile.default : StyleProfile :=
  { user_id := "default"
    edit_count := 0
    dimensions :=
      [ ("sentence_length", mkDim "Sentence Length"
          "Preference for short, punchy vs. long, flowing sentences" "balanced"),
        ("formality", mkDim "Formality"
          "Formal/academic vs. conversational tone" "professional but accessible"),
        ("jargon_level", mkDim "Technical Jargon"
          "Heavy use of medical/AI terminology vs. plain language"
          "moderate -- explains terms when first used"),
        ("structure", mkDim "Structure Preference"
          "Headers and lists vs. flowing prose" "mixed"),
        ("opening_style", mkDim "Opening Style"
          "How articles begin: anecdote, question, statistic, statement"
          "not yet determined"),
        ("closing_style", mkDim "Closing Style"
          "How articles end: call to action, summary, question, reflection"
          "not yet determined"),
        ("humor", mkDim "Humor Usage"
          "Frequency and type of humor" "not yet determined"),
        ("personal_anecdotes", mkDim "Personal Anecdotes"
          "Use of personal stories and experiences" "not yet determined") ] }

/-- `dim.examples = dim.examples[-5:]` — keep the last 5 entries. -/
def lastFive (l : List JVal) : List JVal :=
  l.drop (l.length - 5)

/-- The per-dimension update of `StyleAnalyzer.analyze_edit` once
`dim_key in analysis` holds and `entry = analysis[dim_key]`: only applied when
`isinstance(entry, dict)`; sets `value` from the `"preference"` key (keeping
the old value when absent), bumps confidence by 0.15 capped at 1.0, and when
an `"example"` key is present appends it and keeps the last five. -/
def updateDim (d : StyleDimension) (entry : JVal) : StyleDimension :=
  match entry with
  | .jobj fields =>
    { d with
      value := (objGet fields "preference").getD d.value
      confidence := min 1 (d.confidence + 0.15)
      examples :=
        match objGet fields "example" with
        | some ex => lastFive (d.examples ++ [ex])
        | none => d.examples }
  | _ => d

/-- The `for dim_key, dim in profile.dimensions.items()` loop of
`analyze_edit`, in the exception monad: `TypeError`/`KeyError` raised by
`dim_key in analysis` or `analysis[dim_key]` aborts the whole update (in the
source nothing has been mutated at that point, so discarding is faithful). -/
def updateDims : List (String × StyleDimension) → JVal →
    Except PyErr (List (String × StyleDimension))
  | [], _ => .ok []
  | (key, d) :: rest, analysis => do
    let mem ← pyIn key analysis
    let d' ← if mem then (pyGetItem key analysis).map (updateDim d) else .ok d
    let rest' ← updateDims rest analysis
    .ok ((key, d') :: rest')

/-- `StyleAnalyzer.analyze_edit` (style/analyzer.py), as a function of the
parse outcome of the model reply: `none` models `json.JSONDecodeError`, in
which case (as for a `TypeError`/`KeyError` in the loop) the `except` clause
leaves the profile untouched; otherwise the dimensions are updated and
`edit_count` incremented. -/
def analyze_edit (parsed : Option JVal) (p : StyleProfile) : StyleProfile :=
  match parsed with
  | none => p
  | some analysis =>
    match updateDims p.dimensions analysis with
    | .error _ => p
    | .ok dims => { p with dimensions := dims, edit_count := p.edit_count + 1 }

/-- Python `str()` of a stored dimension value, as used by the f-string in
`to_prompt_fragment`. Profiles respecting the documented data model only ever
hold strings here; the non-string renderings are representative. -/
def fmtValue : JVal → String
  | .jnull => "None"
  | .jbool true => "True"
  | .jbool false => "False"
  | .jnum q => toString q
  | .jstr s => s
  | .jarr _ => "[...]"
  | .jobj _ => "\x7b...\x7d"

/-- The `f"- {dim.name}: {dim.value}"` line of `to_prompt_fragment`. -/
def mkDimLine (d : StyleDimension) : String :=
  "- " ++ d.name ++ ": " ++ fmtValue d.value

/-- The `f'  Example: "{dim.examples[-1]}"'` line of `to_prompt_fragment`;
only emitted when `examples` is non-empty, so the `.jnull` default of
`getLast?` is never rendered. -/
def mkExampleLine (d : StyleDimension) : String :=
  "  Example: \"" ++ fmtValue (d.examples.getLast?.getD .jnull) ++ "\""

def headerLine : String :=
  "AUTHOR STYLE PREFERENCES (learned from previous edits):"

/-- The `for dim in self.dimensions.values()` loop of `to_prompt_fragment`:
each dimension with confidence above 0.2 contributes its name/value line,
plus the most-recent-example line when it has examples. -/
def fragmentLines : List (String × StyleDimension) → List String
  | [] => []
  | (_, d) :: rest =>
    (if d.confidence > 0.2 then
      mkDimLine d :: (if d.examples.isEmpty then [] else [mkExampleLine d])
     else []) ++ fragmentLines rest

/-- Python `"\n".join(lines)`. -/
def joinLines : List String → String
  | [] => ""
  | [x] => x
  | x :: y :: rest => x ++ "\n" ++ joinLines (y :: rest)

/-- `StyleProfile.to_prompt_fragment` (style/profile.py). -/
def to_prompt_fragment (p : StyleProfile) : String :=
  if p.edit_count = 0 then ""
  else joinLines (headerLine :: fragmentLines p.dimensions)

/-- Python `self.dimensions.get(key)` — dict lookup, `none` when absent. -/
def dictGet (l : List (String × StyleDimension)) (key : String) :
    Option StyleDimension :=
  (l.find? (fun kd => kd.1 == key)).map (fun kd => kd.2)

/-- Python `str.lower()` (the values involved are ASCII). -/
def lowerStr (s : String) : String :=
  ⟨s.data.map Char.toLower⟩

/-- Python `.lower()` on a stored dimension value: defined on strings,
`AttributeError` on anything else. -/
def pyLower : JVal → Except PyErr String
  | .jstr s => .ok (lowerStr s)
  | _ => .error .attrError

/-- `StyleApplier.suggest_temperature` (style/applier.py): looks only at the
`"formality"` dimension; with confidence above 0.3, a lowercased value
containing `"formal"` or `"academic"` gives 0.5, else containing `"casual"`
or `"conversational"` gives 0.8; every other path returns 0.7. -/
def suggest_temperature (p : StyleProfile) : Except PyErr ℚ :=
  match dictGet p.dimensions "formality" with
  | some formality =>
    if formality.confidence > 0.3 then do
      let val ← pyLower formality.value
      if substrOf "formal" val || substrOf "academic" val then .ok 0.5
      else if substrOf "casual" val || substrOf "conversational" val then .ok 0.8
      else .ok 0.7
    else .ok 0.7
  | none => .ok 0.7

/-! ### Generic `Except` bind reductions used to unfold the update loop -/

theorem exBind_ok {α β : Type} (a : α) (f : α → Except PyErr β) :
    (Except.ok a >>= f) = f a := rfl

theorem exBind_err {α β : Type} (e : PyErr) (f : α → Except PyErr β) :
    ((Except.error e : Except PyErr α) >>= f) = Except.error e := rfl

theorem exMap_ok {α β : Type} (f : α → β) (a : α) :
    Except.map f (Except.ok a : Except PyErr α) = Except.ok (f a) := rfl

theorem exMap_err {α β : Type} (f : α → β) (e : PyErr) :
    Except.map f (Except.error e : Except PyErr α) = Except.error e := rfl

/-! ### Style analyzer lemmas -/

theorem updateDim_confidence (d : StyleDimension) (fields : List (String × JVal)) :
    (updateDim d (.jobj fields)).confidence = min 1 (d.confidence + 0.15) := rfl

theorem updateDim_conf_le_one (d : StyleDimension) (fields : List (String × JVal)) :
    (updateDim d (.jobj fields)).confidence ≤ 1 := by
  rw [updateDim_confidence]; exact min_le_left _ _

theorem updateDim_conf_mono (d : StyleDimension) (fields : List (String × JVal))
    (h : d.confidence ≤ 1) : d.confidence ≤ (updateDim d (.jobj fields)).confidence := by
  rw [updateDim_confidence]
  exact le_min h (by linarith)

theorem updateDims_jarr_nil (l : List (String × StyleDimension)) :
    updateDims l (.jarr []) = .ok l := by
  induction l with
  | nil => rfl
  | cons kd rest ih =>
    obtain ⟨key, d⟩ := kd
    simp only [updateDims, pyIn, List.any_nil, exBind_ok, if_neg Bool.false_ne_true,
      Bool.false_eq_true, if_false, ih]

theorem updateDim_examples_le (d : StyleDimension) (entry : JVal)
    (h : d.examples.length ≤ 5) : (updateDim d entry).examples.length ≤ 5 := by
  cases entry with
  | jobj fields =>
    simp only [updateDim]
    cases objGet fields "example" with
    | none => exact h
    | some ex => simp only [lastFive, List.length_drop]; omega
  | jnull => exact h
  | jbool b => exact h
  | jnum q => exact h
  | jstr s => exact h
  | jarr xs => exact h

theorem updateDims_examples_le (v : JVal) :
    ∀ l l', updateDims l v = .ok l' →
      (∀ kd ∈ l, kd.2.examples.length ≤ 5) →
      ∀ kd ∈ l', kd.2.examples.length ≤ 5 := by
  intro l
  induction l with
  | nil =>
    intro l' h _
    simp only [updateDims] at h
    cases h
    intro kd hkd
    simp at hkd
  | cons kd0 rest ih =>
    intro l' h hall
    obtain ⟨key, d⟩ := kd0
    simp only [updateDims] at h
    cases hmem : pyIn key v with
    | error e => rw [hmem, exBind_err] at h; cases h
    | ok mem =>
      rw [hmem, exBind_ok] at h
      have hrest_case : ∀ d', d'.examples.length ≤ 5 →
          ((Except.ok d' : Except PyErr StyleDimension) >>= fun y =>
            updateDims rest v >>= fun rest' => Except.ok ((key, y) :: rest')) = .ok l' →
          ∀ kd ∈ l', kd.2.examples.length ≤ 5 := by
        intro d' hd5 hh
        rw [exBind_ok] at hh
        cases hrest : updateDims rest v with
        | error e => rw [hrest, exBind_err] at hh; cases hh
        | ok rest' =>
          rw [hrest, exBind_ok] at hh
          cases hh
          intro kd hkd
          rcases List.mem_cons.mp hkd with hkd | hkd
          · subst hkd; exact hd5
          · exact ih rest' hrest (fun x hx => hall x (List.mem_cons_of_mem _ hx)) kd hkd
      cases mem with
      | false =>
        simp only [Bool.false_eq_true, if_false] at h
        exact hrest_case d (hall (key, d) (by simp)) h
      | true =>
        simp only [if_true] at h
        cases hg : pyGetItem key v with
        | error e => rw [hg, exMap_err, exBind_err] at h; cases h
        | ok entry =>
          rw [hg, exMap_ok, exBind_ok] at h
          exact hrest_case (updateDim d entry)
            (updateDim_examples_le d entry (hall (key, d) (by simp)))
            (by rw [exBind_ok]; exact h)

/-! ### C1 -/

/-- C1 (counterexample): the claim says a reply that is not parseable as the
expected structure leaves `edit_count` unchanged. But for the reply `[]` —
valid JSON, not the expected dimension-keyed object — `analyze_edit` on the
default profile increments `edit_count` from 0 to 1 (only a
`json.JSONDecodeError` / `TypeError` / `KeyError` skips the increment). -/
theorem analyze_edit_jarr_increments :
    (analyze_edit (some (.jarr [])) StyleProfile.default).edit_count = 1 ∧
      StyleProfile.default.edit_count = 0 := by
  constructor
  · rw [analyze_edit, updateDims_jarr_nil]
    rfl
  · rfl

/-- C1 (amended): if the model reply is not parseable as JSON
(`json.JSONDecodeError`, modelled by `none`), `analyze_edit` returns the
profile unmodified — `edit_count` does not increment and every dimension's
value, confidence and examples stay unchanged; the same holds when iterating
the parsed reply raises a `TypeError` (e.g. a JSON number, on a profile with
at least one dimension). A reply that parses to an empty JSON array, however,
leaves every dimension untouched but still increments `edit_count`. -/
theorem analyze_edit_unparseable_noop :
    (∀ p : StyleProfile, analyze_edit none p = p)
    ∧ (∀ (p : StyleProfile) (q : ℚ), p.dimensions ≠ [] →
        analyze_edit (some (.jnum q)) p = p)
    ∧ (∀ p : StyleProfile, analyze_edit (some (.jarr [])) p
        = { p with edit_count := p.edit_count + 1 }) := by
  refine ⟨fun p => rfl, ?_, ?_⟩
  · intro p q hne
    cases hd : p.dimensions with
    | nil => exact absurd hd hne
    | cons kd rest =>
      obtain ⟨key, d⟩ := kd
      simp only [analyze_edit, hd, updateDims, pyIn, exBind_err]
  · intro p
    simp only [analyze_edit, updateDims_jarr_nil]

/-- C1 witness: the amended no-op behaviour evaluated on the default profile
with the reply `5` (a JSON number). -/
theorem analyze_edit_unparseable_noop_witness :
    StyleProfile.default.dimensions ≠ [] ∧
      analyze_edit (some (.jnum 5)) StyleProfile.default = StyleProfile.default :=
  ⟨by simp [StyleProfile.default],
    analyze_edit_unparseable_noop.2.1 StyleProfile.default 5
      (by simp [StyleProfile.default])⟩

/-! ### C2 -/

/-- C2: whenever `analyze_edit` applies a parsed reply entry to a dimension
(`updateDim` with a dict entry, the only case in which the source mutates the
dimension), the new confidence is exactly `min(1.0, confidence + 0.15)`;
and for a dimension whose confidence satisfies the documented invariant
(≤ 1), any number of repeated updates keeps confidence at most 1.0 and
never decreases it. -/
theorem confidence_update_capped :
    (∀ (d : StyleDimension) (fields : List (String × JVal)),
      (updateDim d (.jobj fields)).confidence = min 1 (d.confidence + 0.15))
    ∧ (∀ (d : StyleDimension) (fields : List (String × JVal)) (n : ℕ),
        d.confidence ≤ 1 →
        ((fun x => updateDim x (.jobj fields))^[n] d).confidence ≤ 1
        ∧ ((fun x => updateDim x (.jobj fields))^[n] d).confidence ≤
            ((fun x => updateDim x (.jobj fields))^[n + 1] d).confidence) := by
  refine ⟨fun d fields => updateDim_confidence d fields, ?_⟩
  intro d fields n h
  induction n with
  | zero =>
    refine ⟨h, ?_⟩
    simpa using updateDim_conf_mono d fields h
  | succ k ih =>
    have hle : ((fun x => updateDim x (.jobj fields))^[k + 1] d).confidence ≤ 1 := by
      rw [Function.iterate_succ_apply']
      exact updateDim_conf_le_one _ _
    refine ⟨hle, ?_⟩
    rw [Function.iterate_succ_apply' (f := fun x => updateDim x (.jobj fields)) (n := k + 1)]
    exact updateDim_conf_mono _ fields hle

/-- C2 witness: two consecutive updates of a fresh dimension, confidence
`0 ≤ 1` discharged concretely. -/
theorem confidence_update_capped_witness :
    (updateDim (mkDim "Formality" "tone" "balanced")
        (.jobj [("preference", .jstr "casual")])).confidence
      = min 1 ((mkDim "Formality" "tone" "balanced").confidence + 0.15)
    ∧ ((fun x => updateDim x (.jobj [("preference", .jstr "casual")]))^[2]
        (mkDim "Formality" "tone" "balanced")).confidence ≤ 1 :=
  ⟨confidence_update_capped.1 _ _,
    (confidence_update_capped.2 (mkDim "Formality" "tone" "balanced")
      [("preference", .jstr "casual")] 2 (by norm_num [mkDim])).1⟩

/-! ### C5 -/

/-- C5: after any `analyze_edit` on a profile whose dimensions respect the
documented bound (at most 5 examples each), every dimension's examples list
still has length at most 5; when an entry carries an example, it is appended
last (most recent last, order preserved), and appending to a full list of 5
evicts exactly the oldest element. -/
theorem examples_bounded_and_ordered :
    (∀ (p : StyleProfile) (parsed : Option JVal),
      (∀ kd ∈ p.dimensions, kd.2.examples.length ≤ 5) →
      ∀ kd ∈ (analyze_edit parsed p).dimensions, kd.2.examples.length ≤ 5)
    ∧ (∀ (d : StyleDimension) (fields : List (String × JVal)) (ex : JVal),
        objGet fields "example" = some ex → d.examples.length ≤ 4 →
        (updateDim d (.jobj fields)).examples = d.examples ++ [ex])
    ∧ (∀ (d : StyleDimension) (fields : List (String × JVal)) (ex : JVal),
        objGet fields "example" = some ex → d.examples.length = 5 →
        (updateDim d (.jobj fields)).examples = d.examples.tail ++ [ex]) := by
  refine ⟨?_, ?_, ?_⟩
  · intro p parsed hall
    cases parsed with
    | none => exact hall
    | some analysis =>
      simp only [analyze_edit]
      cases h : updateDims p.dimensions analysis with
      | error e => exact hall
      | ok dims =>
        intro kd hkd
        exact updateDims_examples_le analysis p.dimensions dims h hall kd hkd
  · intro d fields ex hex hlen
    simp only [updateDim, hex, lastFive, List.length_append, List.length_cons,
      List.length_nil]
    have h0 : d.examples.length + (0 + 1) - 5 = 0 := by omega
    rw [h0, List.drop_zero]
  · intro d fields ex hex hlen
    simp only [updateDim, hex, lastFive, List.length_append, List.length_cons,
      List.length_nil]
    have h1 : d.examples.length + (0 + 1) - 5 = 1 := by omega
    rw [h1, List.drop_append_eq_append_drop, ← List.drop_one]
    simp [hlen]

/-- C5 witness: a dimension holding 5 examples receives a 6th: the oldest is
evicted, order preserved, newest last; plus the `analyze_edit`-level bound on
the default profile. -/
theorem examples_bounded_and_ordered_witness :
    (updateDim
        { name := "E", description := "", value := .jstr "v", confidence := 0,
          examples := [.jstr "a", .jstr "b", .jstr "c", .jstr "d", .jstr "e"] }
        (.jobj [("example", .jstr "f")])).examples
      = [.jstr "b", .jstr "c", .jstr "d", .jstr "e", .jstr "f"]
    ∧ ∀ kd ∈ (analyze_edit (some (.jobj [])) StyleProfile.default).dimensions,
        kd.2.examples.length ≤ 5 := by
  constructor
  · have h := examples_bounded_and_ordered.2.2
      { name := "E", description := "", value := .jstr "v", confidence := 0,
        examples := [.jstr "a", .jstr "b", .jstr "c", .jstr "d", .jstr "e"] }
      [("example", .jstr "f")] (.jstr "f") rfl rfl
    rw [h]
    rfl
  · exact examples_bounded_and_ordered.1 StyleProfile.default (some (.jobj []))
      (by intro kd hkd; fin_cases hkd <;> simp [mkDim])

/-! ### C3 -/

/-- The lines one qualifying dimension contributes to the prompt fragment:
its name/value line, plus the most-recent-example line when examples exist. -/
def specDimLines (d : StyleDimension) : List String :=
  mkDimLine d :: (if d.examples.isEmpty then [] else [mkExampleLine d])

theorem fragmentLines_eq_filter (l : List (String × StyleDimension)) :
    fragmentLines l =
      (l.filter (fun kd => kd.2.confidence > 0.2)).flatMap (fun kd => specDimLines kd.2) := by
  induction l with
  | nil => rfl
  | cons kd rest ih =>
    obtain ⟨key, d⟩ := kd
    by_cases h : d.confidence > 0.2
    · simp only [fragmentLines, if_pos h, List.filter_cons, decide_eq_true h,
        if_true, List.flatMap_cons, ih, specDimLines]
    · simp only [fragmentLines, if_neg h, List.filter_cons, decide_eq_false h,
        Bool.false_eq_true, if_false, List.nil_append, ih]

theorem joinLines_header_ne_empty (L : List String) :
    joinLines (headerLine :: L) ≠ "" := by
  cases L with
  | nil => intro h; exact absurd h (by decide)
  | cons y rest =>
    intro h
    have hlen := congrArg String.length h
    simp only [joinLines, String.length_append] at hlen
    have hh : 0 < headerLine.length := by decide
    have h0 : ("" : String).length = 0 := by decide
    omega

/-- C3: `to_prompt_fragment` returns empty text iff `edit_count = 0`; for a
profile with at least one recorded edit, the output is the header line
followed by exactly the lines of the dimensions whose confidence exceeds
0.2 (in dictionary order, each contributing its name/value line plus the
most-recent-example line when it has examples) — dimensions at or below 0.2
contribute nothing. -/
theorem to_prompt_fragment_threshold (p : StyleProfile) :
    (to_prompt_fragment p = "" ↔ p.edit_count = 0)
    ∧ (p.edit_count ≠ 0 →
        to_prompt_fragment p =
          joinLines (headerLine ::
            (p.dimensions.filter (fun kd => kd.2.confidence > 0.2)).flatMap
              (fun kd => specDimLines kd.2))) := by
  constructor
  · constructor
    · intro h
      by_contra hne
      rw [to_prompt_fragment, if_neg hne] at h
      exact joinLines_header_ne_empty _ h
    · intro h
      simp [to_prompt_fragment, h]
  · intro h
    rw [to_prompt_fragment, if_neg h, fragmentLines_eq_filter]

/-- A concrete two-dimension profile for the C3 witness: one dimension above
the 0.2 threshold (with an example), one below. -/
def fragProfile : StyleProfile :=
  { user_id := "default", edit_count := 3,
    dimensions :=
      [ ("formality",
          { name := "Formality", description := "", value := .jstr "casual and direct",
            confidence := 0.5, examples := [.jstr "Heres what happened"] }),
        ("humor",
          { name := "Humor Usage", description := "", value := .jstr "dry",
            confidence := 0.1, examples := [] }) ] }

/-- C3 witness: the threshold theorem applied to `fragProfile`, whose
`edit_count = 3` hypothesis is discharged by computation. -/
theorem to_prompt_fragment_threshold_witness :
    fragProfile.edit_count ≠ 0 ∧
      to_prompt_fragment fragProfile =
        joinLines (headerLine ::
          (fragProfile.dimensions.filter (fun kd => kd.2.confidence > 0.2)).flatMap
            (fun kd => specDimLines kd.2)) :=
  ⟨by decide, (to_prompt_fragment_threshold fragProfile).2 (by decide)⟩

/-! ### C8 -/

/-- C8: `suggest_temperature` looks only at the `"formality"` dimension.
When it is absent, or its confidence is at most 0.3, the result is 0.7.
When its confidence exceeds 0.3 and its (string) value contains `"formal"`
or `"academic"` case-insensitively, the result is 0.5 — this rule is checked
first; otherwise if the value contains `"casual"` or `"conversational"` the
result is 0.8; otherwise 0.7. -/
theorem suggest_temperature_formality :
    (∀ p : StyleProfile, dictGet p.dimensions "formality" = none →
      suggest_temperature p = .ok 0.7)
    ∧ (∀ (p : StyleProfile) (d : StyleDimension) (s : String),
        dictGet p.dimensions "formality" = some d → d.value = .jstr s →
        (d.confidence ≤ 0.3 → suggest_temperature p = .ok 0.7)
        ∧ (d.confidence > 0.3 →
            ((substrOf "formal" (lowerStr s) || substrOf "academic" (lowerStr s)) = true →
              suggest_temperature p = .ok 0.5)
            ∧ ((substrOf "formal" (lowerStr s) || substrOf "academic" (lowerStr s)) = false →
                (substrOf "casual" (lowerStr s) || substrOf "conversational" (lowerStr s)) = true →
                suggest_temperature p = .ok 0.8)
            ∧ ((substrOf "formal" (lowerStr s) || substrOf "academic" (lowerStr s)) = false →
                (substrOf "casual" (lowerStr s) || substrOf "conversational" (lowerStr s)) = false →
                suggest_temperature p = .ok 0.7))) := by
  constructor
  · intro p hnone
    simp only [suggest_temperature, hnone]
  · intro p d s hd hv
    constructor
    · intro hconf
      simp only [suggest_temperature, hd]
      rw [if_neg (not_lt.mpr hconf)]
    · intro hconf
      refine ⟨?_, ?_, ?_⟩
      · intro h1
        simp only [suggest_temperature, hd, hv, pyLower]
        rw [if_pos hconf, exBind_ok, if_pos h1]
      · intro h1 h2
        simp only [suggest_temperature, hd, hv, pyLower]
        rw [if_pos hconf, exBind_ok, if_neg (by simp [h1]), if_pos h2]
      · intro h1 h2
        simp only [suggest_temperature, hd, hv, pyLower]
        rw [if_pos hconf, exBind_ok, if_neg (by simp [h1]), if_neg (by simp [h2])]

/-- Single-dimension profile with the given formality value and confidence,
for the C8 witness. -/
def formalityProfile (v : String) (c : ℚ) : StyleProfile :=
  { user_id := "default", edit_count := 1,
    dimensions :=
      [("formality",
        { name := "Formality", description := "", value := .jstr v,
          confidence := c, examples := [] })] }

/-- C8 witness: confidence 0.5 with a value containing "academic" gives 0.5,
with "casual" gives 0.8; confidence 0.1 gives 0.7; and a profile with no
formality dimension gives 0.7. -/
theorem suggest_temperature_formality_witness :
    suggest_temperature (formalityProfile "leaning Academic" 0.5) = .ok 0.5
    ∧ suggest_temperature (formalityProfile "casual tone" 0.5) = .ok 0.8
    ∧ suggest_temperature (formalityProfile "leaning Academic" 0.1) = .ok 0.7
    ∧ suggest_temperature
        { user_id := "default", edit_count := 0, dimensions := [] } = .ok 0.7 :=
  ⟨((suggest_temperature_formality.2 (formalityProfile "leaning Academic" 0.5) _
      "leaning Academic" rfl rfl).2 (by norm_num)).1 (by decide),
   (((suggest_temperature_formality.2 (formalityProfile "casual tone" 0.5) _
      "casual tone" rfl rfl).2 (by norm_num)).2.1 (by decide) (by decide)),
   (suggest_temperature_formality.2 (formalityProfile "leaning Academic" 0.1) _
      "leaning Academic" rfl rfl).1 (by norm_num),
   suggest_temperature_formality.1 _ rfl⟩

/-! ### Model client retry policy (llm/client.py) -/

/-- Classification of the exceptions the model call can raise:
`auth` is `anthropic.AuthenticationError` (HTTP 401, a subclass of
`APIStatusError` but tested first), `status c` any other `APIStatusError`
with status code `c`, `transport` every other exception (network errors,
timeouts, ...). -/
inductive ApiErr where
  | auth
  | status (code : ℕ)
  | transport
  deriving DecidableEq

/-- `_is_retryable` (llm/client.py): authentication errors are never
retryable; a 4xx status is retryable only when it is 429; everything else
(5xx, transport) is retryable. -/
def is_retryable : ApiErr → Bool
  | .auth => false
  | .status code => if code < 500 then code == 429 else true
  | .transport => true

/-- The tenacity retry loop around `ClaudeClient.generate`
(`stop_after_attempt(3)`, `retry_if_exception(_is_retryable)`), as a
function of each numbered attempt's outcome. `attempt` is the 1-based
attempt number, `remaining` the number of retries still allowed; the result
is the number of attempts made and the final outcome. After the allowed
attempts are exhausted tenacity raises `RetryError` wrapping the last
attempt, modelled as surfacing the last error; the backoff waits
(`wait_exponential`) only affect timing and are not modelled. -/
def retryExec (o : ℕ → Except ApiErr String) (attempt remaining : ℕ) :
    ℕ × Except ApiErr String :=
  match o attempt with
  | .ok s => (attempt, .ok s)
  | .error e =>
    match remaining with
    | 0 => (attempt, .error e)
    | r + 1 => if is_retryable e then retryExec o (attempt + 1) r else (attempt, .error e)

/-- `ClaudeClient.generate`: at most 3 attempts total (attempt 1 with 2
retries remaining). -/
def generate (o : ℕ → Except ApiErr String) : ℕ × Except ApiErr String :=
  retryExec o 1 2

theorem retryExec_ok (o : ℕ → Except ApiErr String) (a r : ℕ) (s : String)
    (h : o a = .ok s) : retryExec o a r = (a, .ok s) := by
  rw [retryExec, h]

theorem retryExec_err_zero (o : ℕ → Except ApiErr String) (a : ℕ) (e : ApiErr)
    (h : o a = .error e) : retryExec o a 0 = (a, .error e) := by
  rw [retryExec, h]

theorem retryExec_err_retry (o : ℕ → Except ApiErr String) (a r : ℕ) (e : ApiErr)
    (h : o a = .error e) (hr : is_retryable e = true) :
    retryExec o a (r + 1) = retryExec o (a + 1) r := by
  rw [retryExec, h]
  simp [hr]

theorem retryExec_err_stop (o : ℕ → Except ApiErr String) (a r : ℕ) (e : ApiErr)
    (h : o a = .error e) (hr : is_retryable e = false) :
    retryExec o a (r + 1) = (a, .error e) := by
  rw [retryExec, h]
  simp [hr]

theorem retryExec_attempt_ge (o : ℕ → Except ApiErr String) :
    ∀ r a, a ≤ (retryExec o a r).1 := by
  intro r
  induction r with
  | zero =>
    intro a
    cases h : o a with
    | ok s => rw [retryExec_ok o a 0 s h]
    | error e => rw [retryExec_err_zero o a e h]
  | succ k ih =>
    intro a
    cases h : o a with
    | ok s => rw [retryExec_ok o a (k + 1) s h]
    | error e =>
      cases hr : is_retryable e with
      | false => rw [retryExec_err_stop o a k e h hr]
      | true =>
        rw [retryExec_err_retry o a k e h hr]
        exact le_trans (Nat.le_succ a) (ih (a + 1))

theorem retryExec_attempt_le (o : ℕ → Except ApiErr String) :
    ∀ r a, (retryExec o a r).1 ≤ a + r := by
  intro r
  induction r with
  | zero =>
    intro a
    cases h : o a with
    | ok s => rw [retryExec_ok o a 0 s h]; omega
    | error e => rw [retryExec_err_zero o a e h]; omega
  | succ k ih =>
    intro a
    cases h : o a with
    | ok s => rw [retryExec_ok o a (k + 1) s h]; omega
    | error e =>
      cases hr : is_retryable e with
      | false => rw [retryExec_err_stop o a k e h hr]; omega
      | true =>
        rw [retryExec_err_retry o a k e h hr]
        have := ih (a + 1)
        omega

/-! ### C4 -/

/-- C4: for every `generate` call (as a function of the per-attempt
outcomes): an authentication failure on the first attempt ends the call with
exactly one attempt and surfaces that error; any other client-side 4xx
except 429 likewise gets exactly one attempt; 429, every 5xx and every
transport error are classified retryable and a first-attempt retryable error
forces a second attempt; at most 3 attempts are ever made; and three failed
attempts (the first two retryable) surface the last attempt's error. -/
theorem generate_retry_policy :
    (∀ o : ℕ → Except ApiErr String, o 1 = .error .auth →
      generate o = (1, .error .auth))
    ∧ (∀ (o : ℕ → Except ApiErr String) (c : ℕ), c < 500 → c ≠ 429 →
        o 1 = .error (.status c) → generate o = (1, .error (.status c)))
    ∧ (is_retryable (.status 429) = true
        ∧ (∀ c, 500 ≤ c → is_retryable (.status c) = true)
        ∧ is_retryable .transport = true
        ∧ is_retryable .auth = false)
    ∧ (∀ (o : ℕ → Except ApiErr String) (e : ApiErr), is_retryable e = true →
        o 1 = .error e → 2 ≤ (generate o).1)
    ∧ (∀ o : ℕ → Except ApiErr String, (generate o).1 ≤ 3)
    ∧ (∀ (o : ℕ → Except ApiErr String) (e₁ e₂ e₃ : ApiErr),
        is_retryable e₁ = true → is_retryable e₂ = true →
        o 1 = .error e₁ → o 2 = .error e₂ → o 3 = .error e₃ →
        generate o = (3, .error e₃)) := by
  refine ⟨?_, ?_, ⟨rfl, ?_, rfl, rfl⟩, ?_, ?_, ?_⟩
  · intro o h
    rw [generate, retryExec_err_stop o 1 1 .auth h rfl]
  · intro o c hlt hne h
    have hr : is_retryable (.status c) = false := by
      simp only [is_retryable, if_pos hlt]
      exact beq_eq_false_iff_ne.mpr hne
    rw [generate, retryExec_err_stop o 1 1 (.status c) h hr]
  · intro c hc
    simp only [is_retryable, if_neg (by omega : ¬ c < 500)]
  · intro o e hr h
    rw [generate, retryExec_err_retry o 1 1 e h hr]
    exact retryExec_attempt_ge o 1 2
  · intro o
    exact retryExec_attempt_le o 2 1
  · intro o e₁ e₂ e₃ hr₁ hr₂ h₁ h₂ h₃
    rw [generate, retryExec_err_retry o 1 1 e₁ h₁ hr₁,
      retryExec_err_retry o 2 0 e₂ h₂ hr₂,
      retryExec_err_zero o 3 e₃ h₃]

/-- C4 witness: an authentication failure is attempted exactly once, and
three consecutive 500s exhaust the 3 attempts and surface the last error. -/
theorem generate_retry_policy_witness :
    generate (fun _ => .error .auth) = (1, .error .auth)
    ∧ generate (fun i => .error (.status (500 + i))) = (3, .error (.status 503)) :=
  ⟨generate_retry_policy.1 (fun _ => .error .auth) rfl,
    generate_retry_policy.2.2.2.2.2 (fun i => .error (.status (500 + i)))
      (.status 501) (.status 502) (.status 503) (by decide) (by decide) rfl rfl rfl⟩

/-! ### Conversation (llm/conversation.py) -/

/-- One entry of `Conversation.messages`. -/
structure Msg where
  role : String
  content : String
  deriving DecidableEq

/-- `Conversation.send` (llm/conversation.py): appends the user turn to the
message log, then performs the model call — modelled by its outcome
`callResult` — and on success appends the assistant turn. On failure the
exception propagates with the user turn already appended. -/
def send (history : List Msg) (user : String) (callResult : Except ApiErr String) :
    List Msg × Except ApiErr String :=
  let withUser := history ++ [⟨"user", user⟩]
  match callResult with
  | .ok reply => (withUser ++ [⟨"assistant", reply⟩], .ok reply)
  | .error e => (withUser, .error e)

/-- Does the message log strictly alternate roles, starting with
`expected`? -/
def rolesAlternate : List Msg → String → Bool
  | [], _ => true
  | m :: rest, expected =>
    m.role == expected &&
      rolesAlternate rest (if expected == "user" then "assistant" else "user")

/-! ### C10 -/

/-- C10: `send` appends the user message before invoking the model client, so
a failing call leaves the log extended by exactly the user turn while the
error propagates; re-sending the same text afterwards produces two
consecutive user turns and the log no longer strictly alternates
user/assistant. -/
theorem send_appends_user_before_call :
    (∀ (history : List Msg) (u : String) (e : ApiErr),
      send history u (.error e) = (history ++ [⟨"user", u⟩], .error e))
    ∧ (∀ (u : String) (e : ApiErr) (r : Except ApiErr String),
        (send (send [] u (.error e)).1 u r).1.take 2 = [⟨"user", u⟩, ⟨"user", u⟩]
        ∧ rolesAlternate (send (send [] u (.error e)).1 u r).1 "user" = false) := by
  constructor
  · intro history u e
    rfl
  · intro u e r
    have hba : (("user" : String) == "assistant") = false := by decide
    have huu : (("user" : String) == "user") = true := by decide
    cases r with
    | ok s =>
      constructor
      · rfl
      · simp only [send, List.nil_append, List.cons_append, rolesAlternate,
          huu, hba, Bool.true_and, Bool.false_and, if_true]
    | error e' =>
      constructor
      · rfl
      · simp only [send, List.nil_append, List.cons_append, rolesAlternate,
          huu, hba, Bool.true_and, Bool.false_and, if_true]

/-! ### Generation reply parsing (content/article.py, content/streams.py) -/

/-- Python whitespace for `str.strip` / `str.split()`. -/
def isPySpace (c : Char) : Bool :=
  c == ' ' || c == '\t' || c == '\n' || c == '\r' || c == '\x0b' || c == '\x0c'

/-- Python `str.strip()`. -/
def pyStripChars (s : List Char) : List Char :=
  ((s.dropWhile isPySpace).reverse.dropWhile isPySpace).reverse

/-- Python `str.lstrip("# ")`. -/
def lstripHashSpace (s : List Char) : List Char :=
  s.dropWhile (fun c => c == '#' || c == ' ')

/-- Python `str.split("\n")`, via an accumulator for the current segment. -/
def splitNlAux : List Char → List Char → List (List Char)
  | [], acc => [acc.reverse]
  | c :: t, acc =>
    if c == '\n' then acc.reverse :: splitNlAux t [] else splitNlAux t (c :: acc)

def splitNl (s : List Char) : List (List Char) :=
  splitNlAux s []

/-- Python `"\n".join(lines)`. -/
def joinNl : List (List Char) → List Char
  | [] => []
  | [x] => x
  | x :: y :: rest => x ++ '\n' :: joinNl (y :: rest)

/-- Python `str.split()` — split on whitespace runs, discarding empties. -/
def pySplitWsAux : List Char → List Char → List (List Char)
  | [], acc => if acc.isEmpty then [] else [acc.reverse]
  | c :: t, acc =>
    if isPySpace c then
      if acc.isEmpty then pySplitWsAux t [] else acc.reverse :: pySplitWsAux t []
    else pySplitWsAux t (c :: acc)

def pyWords (s : List Char) : List (List Char) :=
  pySplitWsAux s []

/-- Independent characterization of the whitespace-token count: scan the text
once, counting positions that start a token (a non-space character whose
predecessor is a space or the start of the text). -/
def countTokens : List Char → Bool → ℕ
  | [], _ => 0
  | c :: t, prevSpace =>
    (if !isPySpace c && prevSpace then 1 else 0) + countTokens t (isPySpace c)

/-- Result of a generator's reply parsing: title, body and the word-count
metadata entry. -/
structure Generated where
  title : List Char
  body : List Char
  wordCount : ℕ
  deriving DecidableEq

/-- The reply parsing shared verbatim by `ArticleGenerator.generate` and
`StreamGenerator.generate`: `lines = response.strip().split("\n")`;
`title = lines[0].lstrip("# ").strip() if lines else request.topic`;
`body = "\n".join(lines[1:]).strip()`; word count `len(body.split())`. -/
def parseReply (response topic : List Char) : Generated :=
  let lines := splitNl (pyStripChars response)
  let title :=
    match lines with
    | [] => topic
    | l0 :: _ => pyStripChars (lstripHashSpace l0)
  let body := pyStripChars (joinNl (lines.drop 1))
  { title := title, body := body, wordCount := (pyWords body).length }

/-- Everything after the first newline (empty when there is none). -/
def afterFirstNl (s : List Char) : List Char :=
  match s.dropWhile (fun c => c != '\n') with
  | [] => []
  | _ :: rest => rest

theorem joinNl_cons (x : List Char) (L : List (List Char)) (hL : L ≠ []) :
    joinNl (x :: L) = x ++ '\n' :: joinNl L := by
  cases L with
  | nil => exact absurd rfl hL
  | cons y rest => rfl

theorem splitNlAux_ne_nil : ∀ (s acc : List Char), splitNlAux s acc ≠ [] := by
  intro s
  induction s with
  | nil => intro acc; simp [splitNlAux]
  | cons c t ih =>
    intro acc
    by_cases hc : c == '\n'
    · simp [splitNlAux, hc]
    · simpa [splitNlAux, hc] using ih (c :: acc)

theorem joinNl_splitNlAux : ∀ (s acc : List Char),
    joinNl (splitNlAux s acc) = acc.reverse ++ s := by
  intro s
  induction s with
  | nil => intro acc; simp [splitNlAux, joinNl]
  | cons c t ih =>
    intro acc
    by_cases hc : c == '\n'
    · have hceq : c = '\n' := eq_of_beq hc
      rw [splitNlAux, if_pos hc,
        joinNl_cons _ _ (splitNlAux_ne_nil t []), ih []]
      simp [hceq]
    · rw [splitNlAux, if_neg hc, ih (c :: acc)]
      simp

theorem joinNl_splitNl (s : List Char) : joinNl (splitNl s) = s := by
  simpa using joinNl_splitNlAux s []

theorem splitNlAux_head : ∀ (s acc : List Char),
    (splitNlAux s acc).head? =
      some (acc.reverse ++ s.takeWhile (fun c => c != '\n')) := by
  intro s
  induction s with
  | nil => intro acc; simp [splitNlAux]
  | cons c t ih =>
    intro acc
    by_cases hc : c == '\n'
    · have : (c != '\n') = false := by simp [bne, hc]
      simp [splitNlAux, hc, List.takeWhile_cons, this]
    · have hne : (c != '\n') = true := by simp [bne, hc]
      rw [splitNlAux, if_neg hc, ih (c :: acc)]
      simp [List.takeWhile_cons, hne]

theorem joinNl_splitNl_drop_one : ∀ (s acc : List Char),
    joinNl ((splitNlAux s acc).drop 1) = afterFirstNl s := by
  intro s
  induction s with
  | nil => intro acc; simp [splitNlAux, joinNl, afterFirstNl]
  | cons c t ih =>
    intro acc
    by_cases hc : c == '\n'
    · have : (c != '\n') = false := by simp [bne, hc]
      rw [splitNlAux, if_pos hc]
      simp only [List.drop_succ_cons, List.drop_zero]
      rw [joinNl_splitNlAux t []]
      simp [afterFirstNl, List.dropWhile_cons, this]
    · have hne : (c != '\n') = true := by simp [bne, hc]
      rw [splitNlAux, if_neg hc, ih (c :: acc)]
      simp [afterFirstNl, List.dropWhile_cons, hne]

theorem countTokens_false_dropWhile : ∀ t : List Char,
    countTokens t false = countTokens (t.dropWhile (fun c => !isPySpace c)) false := by
  intro t
  induction t with
  | nil => rfl
  | cons c t' ih =>
    cases hsp : isPySpace c with
    | true => simp [countTokens, List.dropWhile_cons, hsp]
    | false => simp [countTokens, List.dropWhile_cons, hsp, ih]

theorem countTokens_dropWhile_flag : ∀ t : List Char,
    countTokens (t.dropWhile (fun c => !isPySpace c)) false =
      countTokens (t.dropWhile (fun c => !isPySpace c)) true := by
  intro t
  induction t with
  | nil => rfl
  | cons c t' ih =>
    cases hsp : isPySpace c with
    | true => simp [List.dropWhile_cons, hsp, countTokens]
    | false => simpa [List.dropWhile_cons, hsp] using ih

theorem pySplitWsAux_length : ∀ (s acc : List Char),
    (pySplitWsAux s acc).length =
      (if acc.isEmpty then 0 else 1) + countTokens s acc.isEmpty := by
  intro s
  induction s with
  | nil =>
    intro acc
    cases hacc : acc.isEmpty <;> simp [pySplitWsAux, hacc, countTokens]
  | cons c t ih =>
    intro acc
    cases hsp : isPySpace c with
    | true =>
      cases hacc : acc.isEmpty with
      | true =>
        have := ih []
        simp only [List.isEmpty_nil] at this
        simp [pySplitWsAux, hsp, hacc, countTokens, this]
      | false =>
        have := ih []
        simp only [List.isEmpty_nil] at this
        simp [pySplitWsAux, hsp, hacc, countTokens, this]
        omega
    | false =>
      have := ih (c :: acc)
      simp only [List.isEmpty_cons] at this
      cases hacc : acc.isEmpty <;>
        simp [pySplitWsAux, hsp, hacc, countTokens, this]

theorem pyWords_length (s : List Char) :
    (pyWords s).length = countTokens s true := by
  have := pySplitWsAux_length s []
  simpa [pyWords] using this

/-! ### C6 -/

/-- C6: both generators parse a model reply by taking the first line of the
stripped reply as the title (with leading `#` and space characters stripped,
then whitespace-stripped), everything after the first newline (stripped) as
the body, and the word-count metadata entry equals the number of
whitespace-delimited tokens of the body; on the reply
`"# Title Line\n\nBody text here"` this yields title `"Title Line"`, body
`"Body text here"` and word count 3. -/
theorem generation_reply_parse :
    (∀ response topic : List Char,
      (parseReply response topic).title =
        pyStripChars (lstripHashSpace
          ((pyStripChars response).takeWhile (fun c => c != '\n')))
      ∧ (parseReply response topic).body =
        pyStripChars (afterFirstNl (pyStripChars response))
      ∧ (parseReply response topic).wordCount =
        countTokens (parseReply response topic).body true)
    ∧ parseReply "# Title Line\n\nBody text here".data "any topic".data =
        { title := "Title Line".data, body := "Body text here".data,
          wordCount := 3 } := by
  constructor
  · intro response topic
    refine ⟨?_, ?_, ?_⟩
    · have hh := splitNlAux_head (pyStripChars response) []
      cases hsp : splitNl (pyStripChars response) with
      | nil => exact absurd hsp (splitNlAux_ne_nil _ [])
      | cons l0 L =>
        rw [splitNl] at hsp
        rw [hsp] at hh
        simp only [List.head?_cons, Option.some_inj, List.reverse_nil,
          List.nil_append] at hh
        simp only [parseReply, splitNl, hsp, hh]
    · simp only [parseReply, splitNl]
      rw [joinNl_splitNl_drop_one (pyStripChars response) []]
    · simp only [parseReply]
      exact pyWords_length _
  · decide

/-! ### Research analyzer (research/analyzer.py) -/

/-- Python dict item assignment `d[k] = v`: replace in place when the key
exists, append otherwise. -/
def objSet : List (String × JVal) → String → JVal → List (String × JVal)
  | [], k, v => [(k, v)]
  | (k', v') :: rest, k, v =>
    if k' == k then (k, v) :: rest else (k', v') :: objSet rest k v

/-- Python `s[:200]`. -/
def pyTruncate (n : ℕ) (s : String) : String :=
  ⟨s.data.take n⟩

/-- `ArticleAnalyzer.analyze` (research/analyzer.py), as a function of the
parse outcome of the model reply: on `json.JSONDecodeError` (`none`) it
returns the fallback dict (relevance 0, empty focus areas / angles, summary
truncated to 200 characters); on a parsed JSON object it inserts the
article's title and url and returns it; on any other parsed value the
item assignments `result["title"] = ...` raise an uncaught `TypeError`. -/
def analyzeResearch (title url response : String) (parsed : Option JVal) :
    Except PyErr JVal :=
  match parsed with
  | some v =>
    match v with
    | .jobj fields =>
      .ok (.jobj (objSet (objSet fields "title" (.jstr title)) "url" (.jstr url)))
    | _ => .error .typeError
  | none =>
    .ok (.jobj
      [ ("title", .jstr title), ("url", .jstr url),
        ("relevance_score", .jnum 0), ("summary", .jstr (pyTruncate 200 response)),
        ("relevant_focus_areas", .jarr []), ("content_angles", .jarr []) ])

/-! ### C7 -/

/-- C7 (counterexample): the claim says `analyze` returns a result for every
reply text. But the reply `"[]"` parses as JSON (an empty array), is not the
expected object, and the subsequent `result["title"] = article.title` raises
an uncaught `TypeError` — no result is returned. -/
theorem analyzeResearch_jarr_raises :
    ¬ ∃ v : JVal,
      analyzeResearch "AI Triage Study" "https://example.com/a" "[]"
        (some (.jarr [])) = .ok v := by
  intro ⟨v, hv⟩
  exact absurd hv (by simp [analyzeResearch])

/-- C7 (amended): when the model reply is not parseable as JSON at all
(`json.JSONDecodeError`), `analyze` is not fatal: it returns the fallback
result with `relevance_score` 0, empty `relevant_focus_areas` and empty
`content_angles` (and the reply truncated to 200 characters as summary).
A reply that parses to JSON but not to an object, however, raises an
uncaught `TypeError` instead of returning. -/
theorem analyzeResearch_fallback :
    (∀ title url response : String,
      analyzeResearch title url response none =
        .ok (.jobj
          [ ("title", .jstr title), ("url", .jstr url),
            ("relevance_score", .jnum 0),
            ("summary", .jstr (pyTruncate 200 response)),
            ("relevant_focus_areas", .jarr []), ("content_angles", .jarr []) ]))
    ∧ (∀ (title url response : String) (elems : List JVal),
        analyzeResearch title url response (some (.jarr elems)) =
          .error .typeError) :=
  ⟨fun _ _ _ => rfl, fun _ _ _ _ => rfl⟩

/-! ### Blog regeneration (`_regenerate_blog`, cli.py)

The pattern `<!-- BLOG_START -->.*?<!-- BLOG_END -->` is matched with
`re.DOTALL`: a match starts at an occurrence of the start marker and, the
`.*?` being non-greedy, ends at the first end marker after it; `re.search`
scans positions left to right, and `re.sub` replaces each non-overlapping
match, resuming after the replaced span. -/

def startMarker : List Char := "<!-- BLOG_START -->".data

def endMarker : List Char := "<!-- BLOG_END -->".data

/-- Index of the first occurrence of `m` in a list, if any. -/
def findSub (m : List Char) : List Char → Option ℕ
  | [] => if isPrefList m [] then some 0 else none
  | c :: t => if isPrefList m (c :: t) then some 0 else (findSub m t).map (· + 1)

/-- Try to match `START.*?END` at the head of `s`: requires the start marker
as a prefix and an end marker somewhere after it; returns the remainder of
`s` after the (shortest) match. -/
def matchAt (s : List Char) : Option (List Char) :=
  if isPrefList startMarker s then
    match findSub endMarker (s.drop startMarker.length) with
    | some k => some ((s.drop startMarker.length).drop (k + endMarker.length))
    | none => none
  else none

theorem isPrefList_length_le : ∀ m s : List Char,
    isPrefList m s = true → m.length ≤ s.length := by
  intro m
  induction m with
  | nil => intro s _; simp
  | cons a as ih =>
    intro s h
    cases s with
    | nil => simp [isPrefList] at h
    | cons b bs =>
      simp only [isPrefList, Bool.and_eq_true] at h
      have := ih bs h.2
      simp only [List.length_cons]
      omega

theorem matchAt_some_length : ∀ s s' : List Char,
    matchAt s = some s' → s'.length < s.length := by
  intro s s' h
  rw [matchAt] at h
  by_cases hp : isPrefList startMarker s
  · rw [if_pos hp] at h
    cases hf : findSub endMarker (s.drop startMarker.length) with
    | none => rw [hf] at h; cases h
    | some k =>
      rw [hf] at h
      simp only [Option.some_inj] at h
      subst h
      have hlen := isPrefList_length_le startMarker s hp
      have hsm : startMarker.length = 19 := by decide
      simp only [List.length_drop]
      omega
  · rw [if_neg hp] at h; cases h

/-- `re.sub(pattern, blog_html, html, flags=re.DOTALL)`: scan left to right;
at each position, replace the shortest start-to-end match by `b` and resume
after it, otherwise keep the character. -/
def reSubBlog (b : List Char) (s : List Char) : List Char :=
  match hm : matchAt s with
  | some s' => b ++ reSubBlog b s'
  | none =>
    match s with
    | [] => []
    | c :: rest => c :: reSubBlog b rest
termination_by s.length
decreasing_by
  · exact matchAt_some_length s s' hm
  · simp

/-- `re.search(pattern, html, re.DOTALL) is not None`: some position of the
text carries a start-to-end match. -/
def reSearchBlog : List Char → Bool
  | [] => false
  | c :: rest => (matchAt (c :: rest)).isSome || reSearchBlog rest

/-- `ContentRecord` (storage/models.py), restricted to the fields the blog
regeneration reads. -/
structure ContentRecord where
  status : String
  medium_url : String
  title : String
  teaser : String

/-- The DB query of `_regenerate_blog`: all records with
`status == "published"` and `medium_url != ""`. -/
def publishedWithUrl (records : List ContentRecord) : List ContentRecord :=
  records.filter (fun r => r.status == "published" && !(r.medium_url == ""))

/-- `_regenerate_blog` (cli.py) on an existing index.html, as a function of
the file's text. Modelled from the spec: the Jinja template
`blog_section.html.j2` is not under src/, so the rendering of the article
cards is abstracted as the `render` parameter. The Boolean result records
whether the markers were missing: `true` means the warning
"Blog markers not found" was printed and the function returned without
writing, so the returned text (the unchanged input) is never written back;
`false` means the marker-delimited region was substituted and the file
rewritten with the returned text. -/
def regenerateBlog (records : List ContentRecord)
    (render : List ContentRecord → List Char) (html : List Char) :
    List Char × Bool :=
  let blog_html := render (publishedWithUrl records)
  if reSearchBlog html then (reSubBlog blog_html html, false) else (html, true)

theorem reSubBlog_some (b s s' : List Char) (h : matchAt s = some s') :
    reSubBlog b s = b ++ reSubBlog b s' := by
  rw [reSubBlog]
  split
  next s2 hm => rw [h] at hm; cases hm; rfl
  next hm => rw [h] at hm; cases hm

theorem reSubBlog_none_cons (b : List Char) (c : Char) (rest : List Char)
    (h : matchAt (c :: rest) = none) :
    reSubBlog b (c :: rest) = c :: reSubBlog b rest := by
  rw [reSubBlog]
  split
  next s2 hm => rw [h] at hm; cases hm
  next hm => rfl

theorem reSubBlog_nil (b : List Char) : reSubBlog b [] = [] := by
  rw [reSubBlog]
  split
  next s2 hm => rw [show matchAt [] = none from rfl] at hm; cases hm
  next hm => rfl

theorem findSub_spec : ∀ (s m : List Char) (i : ℕ),
    findSub m s = some i →
    isPrefList m (s.drop i) = true ∧ ∀ j, j < i → isPrefList m (s.drop j) = false := by
  intro s
  induction s with
  | nil =>
    intro m i h
    rw [findSub] at h
    by_cases hp : isPrefList m []
    · rw [if_pos hp] at h
      cases h
      exact ⟨hp, by omega⟩
    · rw [if_neg hp] at h; cases h
  | cons c t ih =>
    intro m i h
    rw [findSub] at h
    by_cases hp : isPrefList m (c :: t)
    · rw [if_pos hp] at h
      cases h
      exact ⟨hp, by omega⟩
    · rw [if_neg hp] at h
      cases hf : findSub m t with
      | none => rw [hf] at h; cases h
      | some j =>
        rw [hf] at h
        simp only [Option.map_some', Option.some_inj] at h
        subst h
        obtain ⟨h1, h2⟩ := ih m j hf
        refine ⟨by simpa [List.drop_succ_cons] using h1, ?_⟩
        intro k hk
        cases k with
        | zero => simpa using Bool.eq_false_iff.mpr hp
        | succ k' =>
          rw [List.drop_succ_cons]
          exact h2 k' (by omega)

theorem isPrefList_append_self : ∀ m s : List Char, isPrefList m (m ++ s) = true := by
  intro m
  induction m with
  | nil => intro s; rfl
  | cons a as ih => intro s; simp [isPrefList, ih s]

theorem matchAt_none_of_head_mismatch (s : List Char)
    (h : isPrefList startMarker s = false) : matchAt s = none := by
  rw [matchAt, h]
  simp

theorem matchAt_concat (mid post : List Char)
    (hend : findSub endMarker (mid ++ (endMarker ++ post)) = some mid.length) :
    matchAt (startMarker ++ (mid ++ (endMarker ++ post))) = some post := by
  have hdrop : (mid ++ (endMarker ++ post)).drop (mid.length + endMarker.length)
      = post := by
    rw [show mid ++ (endMarker ++ post) = (mid ++ endMarker) ++ post from by simp,
      show mid.length + endMarker.length = (mid ++ endMarker).length from by simp]
    exact List.drop_left _ _
  rw [matchAt, isPrefList_append_self, if_pos rfl, List.drop_left, hend]
  show some ((mid ++ (endMarker ++ post)).drop (mid.length + endMarker.length))
      = some post
  rw [hdrop]

theorem reSub_noOcc (b : List Char) : ∀ s : List Char,
    hasOcc startMarker s = false → reSubBlog b s = s := by
  intro s
  induction s with
  | nil => intro _; exact reSubBlog_nil b
  | cons c t ih =>
    intro h
    simp only [hasOcc, Bool.or_eq_false_iff] at h
    rw [reSubBlog_none_cons b c t (matchAt_none_of_head_mismatch _ h.1), ih h.2]

theorem search_false (s : List Char) (h : hasOcc startMarker s = false) :
    reSearchBlog s = false := by
  induction s with
  | nil => rfl
  | cons c t ih =>
    simp only [hasOcc, Bool.or_eq_false_iff] at h
    rw [reSearchBlog, matchAt_none_of_head_mismatch _ h.1]
    simp only [Option.isSome_none, Bool.false_or]
    exact ih h.2

theorem search_true : ∀ (s : List Char) (i : ℕ),
    findSub startMarker s = some i →
    (findSub endMarker (s.drop (i + startMarker.length))).isSome = true →
    reSearchBlog s = true := by
  intro s
  induction s with
  | nil =>
    intro i h _
    rw [findSub, if_neg (by decide)] at h
    cases h
  | cons c t ih =>
    intro i h hend
    rw [findSub] at h
    by_cases hp : isPrefList startMarker (c :: t)
    · rw [if_pos hp] at h
      cases h
      rw [Nat.zero_add] at hend
      rw [reSearchBlog, matchAt, hp, if_pos rfl]
      cases hf : findSub endMarker ((c :: t).drop startMarker.length) with
      | none => simp [hf] at hend
      | some k => simp
    · rw [if_neg hp] at h
      cases hf : findSub startMarker t with
      | none => rw [hf] at h; cases h
      | some j =>
        rw [hf] at h
        simp only [Option.map_some', Option.some_inj] at h
        subst h
        have hd : (c :: t).drop (j + 1 + startMarker.length)
            = t.drop (j + startMarker.length) := by
          rw [show j + 1 + startMarker.length = (j + startMarker.length) + 1
              from by omega, List.drop_succ_cons]
        rw [hd] at hend
        simp only [reSearchBlog]
        rw [ih j hf hend]
        simp

theorem reSub_concat (b mid post : List Char)
    (hend : findSub endMarker (mid ++ (endMarker ++ post)) = some mid.length)
    (hpost : hasOcc startMarker post = false) :
    ∀ pre : List Char,
      (∀ j, j < pre.length →
        isPrefList startMarker
          ((pre ++ (startMarker ++ (mid ++ (endMarker ++ post)))).drop j) = false) →
      reSubBlog b (pre ++ (startMarker ++ (mid ++ (endMarker ++ post))))
        = pre ++ b ++ post := by
  intro pre
  induction pre with
  | nil =>
    intro _
    rw [List.nil_append,
      reSubBlog_some b _ post (matchAt_concat mid post hend),
      reSub_noOcc b post hpost]
    simp
  | cons p pre' ih =>
    intro hj
    have h0 : isPrefList startMarker
        ((p :: (pre' ++ (startMarker ++ (mid ++ (endMarker ++ post)))))) = false := by
      have := hj 0 (by simp)
      simpa using this
    rw [List.cons_append,
      reSubBlog_none_cons b p _ (matchAt_none_of_head_mismatch _ h0)]
    rw [ih ?_]
    · simp
    · intro j hjlt
      have := hj (j + 1) (by simpa using Nat.succ_lt_succ hjlt)
      rw [List.cons_append, List.drop_succ_cons] at this
      exact this

/-! ### C9 -/

/-- C9: blog regeneration against an HTML document containing neither marker
comment leaves the text unchanged and sets the warning flag (the file is not
written). When both markers are present — first start marker at position
`pre.length`, first end marker after it closing the region `mid`, and no
further start marker in the remainder — only the marker-delimited region is
replaced by the rendered cards of exactly the published records with
non-empty external URL, and the surrounding text `pre`/`post` is unchanged. -/
theorem blog_regeneration_frame :
    (∀ (records : List ContentRecord) (render : List ContentRecord → List Char)
        (html : List Char),
      hasOcc startMarker html = false → hasOcc endMarker html = false →
      regenerateBlog records render html = (html, true))
    ∧ (∀ (records : List ContentRecord) (render : List ContentRecord → List Char)
        (pre mid post : List Char),
        findSub startMarker (pre ++ (startMarker ++ (mid ++ (endMarker ++ post))))
          = some pre.length →
        findSub endMarker (mid ++ (endMarker ++ post)) = some mid.length →
        hasOcc startMarker post = false →
        regenerateBlog records render
            (pre ++ (startMarker ++ (mid ++ (endMarker ++ post))))
          = (pre ++ render (publishedWithUrl records) ++ post, false)) := by
  constructor
  · intro records render html h1 _
    rw [regenerateBlog]
    simp only [search_false html h1, Bool.false_eq_true, if_false]
  · intro records render pre mid post hstart hend hpost
    obtain ⟨hpre, hjs⟩ := findSub_spec _ startMarker pre.length hstart
    have hsearch : reSearchBlog
        (pre ++ (startMarker ++ (mid ++ (endMarker ++ post)))) = true := by
      apply search_true _ pre.length hstart
      have hdrop : (pre ++ (startMarker ++ (mid ++ (endMarker ++ post)))).drop
          (pre.length + startMarker.length) = mid ++ (endMarker ++ post) := by
        rw [← List.drop_drop, List.drop_left, List.drop_left]
      rw [hdrop, hend]
      rfl
    rw [regenerateBlog]
    simp only [hsearch, if_true]
    rw [reSub_concat _ mid post hend hpost pre hjs]

/-- Concrete records for the C9 witness: one published with URL (kept), one
draft (dropped), one published without URL (dropped). -/
def wRecords : List ContentRecord :=
  [ { status := "published", medium_url := "https://medium.com/p1",
      title := "Card One", teaser := "t1" },
    { status := "draft", medium_url := "https://medium.com/p2",
      title := "Card Two", teaser := "t2" },
    { status := "published", medium_url := "",
      title := "Card Three", teaser := "t3" } ]

/-- Concrete stand-in renderer for the C9 witness. -/
def wRender (rs : List ContentRecord) : List Char :=
  (rs.map (fun r => r.title.data)).flatten

/-- C9 witness: a marker-less document is returned unchanged with the
warning flag; a document with one marker pair has exactly the delimited
region replaced. -/
theorem blog_regeneration_frame_witness :
    regenerateBlog wRecords wRender "<p>no markers here</p>".data
      = ("<p>no markers here</p>".data, true)
    ∧ regenerateBlog wRecords wRender
        ("<html>".data ++ (startMarker ++ ("old".data ++ (endMarker ++ "</html>".data))))
      = ("<html>".data ++ wRender (publishedWithUrl wRecords) ++ "</html>".data, false) :=
  ⟨blog_regeneration_frame.1 wRecords wRender _ (by decide) (by decide),
   blog_regeneration_frame.2 wRecords wRender "<html>".data "old".data "</html>".data
     (by decide) (by decide) (by decide)⟩

end Daccia
